import Mathlib

/-!
Shallow embedding of the result-normalization and best-selection core of the
Participants_race_results repository, together with proofs of the spec claims
about it.

The embedding covers, from `src/best_results_3plus_or_realtiming_race.py`
(namespace `BR`): `normalize_year`, `normalize_distance`,
`choose_best_time_string`, the post-fetch part of `fetch_best_result`, and
`best_results_for_category`; and, from
`src/Single_person_results_w_top_results.py` (namespace `SP`):
`normalize_distance`, `parse_time`, and the best-selection steps of
`fetch_and_process_results` (lines 104-119).

Python strings are modelled as `String`, `np.nan` / missing values as
`none`, elapsed times as second counts (`Nat`), uncaught Python exceptions
as `Except.error`, and a scraped table row as a finite map from column name
to cell text.
-/

/-- Test whether the second character list occurs at the start of the first. -/
def charLeads : List Char → List Char → Bool
  | _, [] => true
  | [], _ :: _ => false
  | c :: cs, d :: ds => c == d && charLeads cs ds

/-- Test whether the pattern occurs anywhere inside the character list. -/
def charHasSub : List Char → List Char → Bool
  | [], pat => pat.isEmpty
  | c :: tail, pat => charLeads (c :: tail) pat || charHasSub tail pat

/-- Model of the Python substring test `pat in s`. -/
def strContains (s pat : String) : Bool :=
  charHasSub s.data pat.data

/-- Drop leading whitespace characters. -/
def dropSpace : List Char → List Char
  | [] => []
  | c :: r => if c.isWhitespace then dropSpace r else c :: r

/-- Model of the Python `str.strip()` method: remove whitespace from both
ends. -/
def pyStrip (s : String) : String :=
  ⟨(dropSpace (dropSpace s.data).reverse).reverse⟩

/-- Split a character list at every occurrence of the separator, keeping
empty segments, as the Python `str.split(sep)` method does. -/
def splitChar (sep : Char) : List Char → List (List Char)
  | [] => [[]]
  | c :: rest =>
    if c == sep then [] :: splitChar sep rest
    else
      match splitChar sep rest with
      | [] => [[c]]
      | g :: gs => (c :: g) :: gs

/-- Model of the Python `str.split(sep)` for a one-character separator. -/
def pySplit (sep : Char) (s : String) : List String :=
  (splitChar sep s.data).map (fun l => ⟨l⟩)

/-- Numeric value of a list of decimal digit characters. -/
def digitsVal (l : List Char) : Nat :=
  l.foldl (fun acc c => acc * 10 + (c.toNat - 48)) 0

/-- Model of the Python `int(str)` conversion: optional surrounding
whitespace, an optional sign, then at least one decimal digit; anything else
raises `ValueError`, modelled as `none`. -/
def pyInt (s : String) : Option Int :=
  match (pyStrip s).data with
  | [] => none
  | '+' :: ds =>
    if !ds.isEmpty && ds.all Char.isDigit then some (Int.ofNat (digitsVal ds))
    else none
  | '-' :: ds =>
    if !ds.isEmpty && ds.all Char.isDigit then some (-(Int.ofNat (digitsVal ds)))
    else none
  | ds =>
    if ds.all Char.isDigit then some (Int.ofNat (digitsVal ds)) else none

/-- Model of `pandas.to_timedelta` on the colon-separated clock texts the
program feeds it: an `H:MM:SS`-style numeric string becomes a second count,
anything else (including the empty string) is unparseable (`NaT`), modelled
as `none`.  Other pandas-accepted duration spellings are not exercised by
the program's data or by any claim. -/
def parseDurationSecs (s : String) : Option Nat :=
  match splitChar ':' (pyStrip s).data with
  | [h, m, sec] =>
    if !h.isEmpty && h.all Char.isDigit && !m.isEmpty && m.all Char.isDigit
        && !sec.isEmpty && sec.all Char.isDigit then
      some (digitsVal h * 3600 + digitsVal m * 60 + digitsVal sec)
    else none
  | _ => none

/-- One scraped table row: a mapping from column name to cell text, as the
HTML adapters hand it to the core. -/
structure Row where
  fields : List (String × String)
deriving DecidableEq

/-- Cell lookup, modelling `row.get(col)` / `row[col]`: the first binding of
the column name, if any. -/
def Row.get (r : Row) (col : String) : Option String :=
  (r.fields.find? (fun p => p.1 == col)).map (fun p => p.2)

/-- A row after the derivation steps of `fetch_and_process_results`: the raw
row plus the derived canonical category (`normalized_distance`), parsed
elapsed seconds (`race_time`), and the note column added on selected rows. -/
structure NRow where
  raw : Row
  dist : Option String
  time : Option Nat
  note : String := ""
deriving DecidableEq

/-- Model of `Series.idxmin` (followed by `df.loc[...]`): the first element
whose key is minimal among the elements with a parseable key, or `none`
when no element has a parseable key (the case where pandas raises). -/
def idxminBy {α : Type} (f : α → Option Nat) : List α → Option α
  | [] => none
  | r :: rest =>
    match f r with
    | none => idxminBy f rest
    | some t =>
      match idxminBy f rest with
      | none => some r
      | some b =>
        match f b with
        | none => some r
        | some tb => if t ≤ tb then some r else some b

namespace BR

/- Line numbers below refer to src/best_results_3plus_or_realtiming_race.py. -/

/-- Inputs the birth-year column can hand to `normalize_year`.  Floats are
not modelled (no claim depends on them); `timestamp` carries the `.year` of
a `pd.Timestamp`. -/
inductive YearInput where
  | na
  | int (n : Int)
  | timestamp (y : Int)
  | str (s : String)
deriving DecidableEq

/-- `normalize_year` (lines 59-81).  `Except.error` models an uncaught
Python exception: `parts[2]` and `int(parts[2])` in the slash branch sit
outside the function's `try` block, so a malformed slash-delimited string
raises `IndexError` or `ValueError`. -/
def normalize_year : YearInput → Except String (Option Int)
  | .na => .ok none
  | .int n => .ok (some n)
  | .timestamp y => .ok (some y)
  | .str s =>
    if strContains s "/" then
      match (pySplit '/' s).get? 2 with
      | none => .error "IndexError: list index out of range"
      | some p =>
        match pyInt p with
        | none => .error "ValueError: invalid literal for int"
        | some year =>
          if year < 100 then
            .ok (some (if year > 25 then year + 1900 else year + 2000))
          else .ok (some year)
    else .ok (pyInt s)

/-- The fixed 10K alias set of line 326. -/
def alias10K : List String := ["10 ק\"מ", "10ק\"מ", "9800", "10000", "10 קמ"]

/-- The fixed 21K alias set of line 329. -/
def alias21K : List String :=
  ["21097", "21 ק\"מ", "21000", "21K", "21k", "חצי מרתון", "חצי מרתון תחרותי",
   "חצי-מרתון", "חצי_מרתון"]

/-- The fixed 42K alias set of line 331. -/
def alias42K : List String := ["42195", "42K", "42k"]

/-- `normalize_distance` (lines 320-337): map a raw distance label to a
canonical category; `none` models `np.nan`, the "unknown" outcome. -/
def normalize_distance (value : Option String) : Option String :=
  match value with
  | none => none
  | some v =>
    let s := pyStrip v
    if s = "" then none
    else if s ∈ alias10K then some "10K"
    else if s ∈ alias21K then some "21K"
    else if s ∈ alias42K then some "42K"
    else if strContains s "15" then some "15K"
    else if strContains s "5" && !strContains s "2" then some "5K"
    else none

/-- The null-time sentinel list of line 346. -/
def nullSentinels : List String := ["00:00:00", "0", "", "NaT", "None"]

/-- `choose_best_time_string` (lines 339-348): the first of the personal
time and the result cells whose stripped text is not a null sentinel, else
the empty string. -/
def choose_best_time_string (row : Row) : String :=
  let v1 := pyStrip ((row.get "זמן אישי").getD "")
  if v1 ∈ nullSentinels then
    let v2 := pyStrip ((row.get "תוצאה").getD "")
    if v2 ∈ nullSentinels then "" else v2
  else v1

end BR

namespace SP

/- Line numbers below refer to src/Single_person_results_w_top_results.py. -/

/-- The fixed 10K alias set of line 78. -/
def alias10K : List String := ["10 ק\"מ", "10ק\"מ", "9800", "10000", "10 קמ"]

/-- The fixed 21K alias set of line 80 (no Hebrew variants in this file). -/
def alias21K : List String := ["21097", "21000", "21K", "21k"]

/-- The fixed 42K alias set of line 82. -/
def alias42K : List String := ["42195", "42K", "42k"]

/-- `normalize_distance` (lines 74-88). -/
def normalize_distance (value : Option String) : Option String :=
  match value with
  | none => none
  | some v =>
    let s := pyStrip v
    if s = "" then none
    else if s ∈ alias10K then some "10K"
    else if s ∈ alias21K then some "21K"
    else if s ∈ alias42K then some "42K"
    else if strContains s "15" then some "15K"
    else if strContains s "5" && !strContains s "2" then some "5K"
    else none

/-- `parse_time` (lines 92-99): take the personal-time cell unless it is one
of the null sentinels of line 95, else the result cell; parse it with
`to_timedelta`; any exception (including a missing column) yields `NaT`
(`none`). -/
def parse_time (row : Row) : Option Nat :=
  match row.get "זמן אישי" with
  | none => none
  | some t =>
    if t ∈ ["00:00:00", "0", ""] then
      match row.get "תוצאה" with
      | none => none
      | some u => parseDurationSecs u
    else parseDurationSecs t

/-- The derivation steps of lines 90-101: attach `normalized_distance` and
`race_time` to a raw row. -/
def mkNRow (r : Row) : NRow :=
  { raw := r, dist := normalize_distance (r.get "מקצה"), time := parse_time r }

/-- The row filter of lines 104-107: a known category that is not in the
exclusion list. -/
def validForBest (n : NRow) : Bool :=
  n.dist.isSome && !(n.dist == some "30000") && !(n.dist == some "7000")

/-- One `groupby(...)["race_time"].idxmin()` lookup per category (line 110).
A group whose times are all `NaT` makes pandas raise (the `idxmin`/`loc`
step fails), modelled as `Except.error`. -/
def pickBests (valid : List NRow) : List String → Except String (List NRow)
  | [] => .ok []
  | c :: cs =>
    match idxminBy NRow.time (valid.filter (fun n => n.dist == some c)) with
    | none => .error "idxmin: all values in the group are NA"
    | some b => (pickBests valid cs).map (fun bs => b :: bs)

/-- The fixed category priority list of line 115. -/
def categoryOrder : List String := ["42K", "21K", "15K", "10K", "5K"]

/-- The sort key of lines 116-118: `order.index(x) if x in order else
len(order)`. -/
def orderKey (d : Option String) : Nat :=
  match d with
  | some c => (categoryOrder.findIdx? (fun x => x == c)).getD 5
  | none => 5

/-- The presentation order of line 119: ascending `order_key`. -/
def keyLE (a b : NRow) : Prop := orderKey a.dist ≤ orderKey b.dist

instance : DecidableRel keyLE := fun _ _ => Nat.decLe _ _

instance : IsTotal NRow keyLE := ⟨fun _ _ => Nat.le_total _ _⟩

instance : IsTrans NRow keyLE := ⟨fun _ _ _ => Nat.le_trans⟩

/-- Lines 104-119 of `fetch_and_process_results`: the per-participant best
selection over already-derived rows — keep rows with a known, non-excluded
category, take the fastest row of each category present, tag it with the
"Best Result" marker, and order the selections by the fixed category
priority.  The category list is deduplicated with one entry per category;
since distinct categories have distinct priority keys, the final sort makes
the group traversal order immaterial. -/
def best_selection (rows : List Row) : Except String (List NRow) :=
  let valid := (rows.map mkNRow).filter validForBest
  let cs := (valid.filterMap NRow.dist).dedup
  (pickBests valid cs).map (fun bs =>
    List.insertionSort keyLE (bs.map (fun b => { b with note := "Best Result" })))

end SP

namespace BR

/-- A selected best row of the aggregator path: the raw row plus the columns
`fetch_best_result` derives (lines 396-401) and the name and note columns it
writes onto the selected row (lines 412-414). -/
structure BRow where
  raw : Row
  dist : Option String
  best_text : String
  time : Option Nat
  first : String := ""
  last : String := ""
  note : String := ""
deriving DecidableEq

/-- The derivation steps of lines 396-401: attach `normalized_distance`,
`תוצאה מיטבית` and `race_time` to a raw result row. -/
def mkBRow (r : Row) : BRow :=
  let t := choose_best_time_string r
  { raw := r, dist := normalize_distance (r.get "מקצה"), best_text := t,
    time := parseDurationSecs t }

/-- The possible outcomes of the HTTP fetch inside `fetch_best_result`
(lines 360-374): the external per-participant result source of spec §6. -/
inductive FetchOutcome where
  | timeout
  | requestError
  | noTable
  | page (rows : List Row)
deriving DecidableEq

/-- `fetch_best_result` (lines 350-416) with the HTTP layer abstracted into
a `FetchOutcome`.  A timeout, request error, missing table, or empty row set
returns `None` (`.ok none`, lines 363-388); otherwise the page rows are
derived, filtered to the requested category (`.ok none` when no row of the
category exists, lines 404-407), and the fastest row is selected and tagged
with the participant name and the "Best Result" marker (lines 410-414).  A
category group whose times are all `NaT` makes the `idxmin`/`loc` step of
lines 410-411 raise, modelled as `Except.error`. -/
def fetch_best_result (outcome : FetchOutcome) (first last category : String) :
    Except String (Option BRow) :=
  match outcome with
  | .timeout => .ok none
  | .requestError => .ok none
  | .noTable => .ok none
  | .page rows =>
    if rows.isEmpty then .ok none
    else
      let cat := (rows.map mkBRow).filter (fun b => b.dist == some category)
      if cat.isEmpty then .ok none
      else
        match idxminBy BRow.time cat with
        | none => .error "idxmin: all values in the group are NA"
        | some b =>
          .ok (some { b with first := first, last := last, note := "Best Result" })

/-- Ascending order on parsed times with `NaT` (`none`) last, the order
`sort_values(by="race_time", ascending=True)` uses. -/
def optLE (a b : Option Nat) : Prop :=
  match b with
  | none => True
  | some y =>
    match a with
    | none => False
    | some x => x ≤ y

instance optLE.dec : DecidableRel optLE := fun a b =>
  match a, b with
  | _, none => isTrue trivial
  | none, some _ => isFalse (fun h => h)
  | some x, some y => Nat.decLe x y

theorem optLE_total (a b : Option Nat) : optLE a b ∨ optLE b a := by
  cases a with
  | none =>
    cases b with
    | none => exact Or.inl trivial
    | some y => exact Or.inr trivial
  | some x =>
    cases b with
    | none => exact Or.inl trivial
    | some y => exact Nat.le_total x y

theorem optLE_trans (a b c : Option Nat) : optLE a b → optLE b c → optLE a c := by
  cases a <;> cases b <;> cases c <;> intro h1 h2 <;>
    first
      | exact trivial
      | exact False.elim h1
      | exact False.elim h2
      | exact Nat.le_trans h1 h2

/-- The sorting relation of lines 434-435: ascending recomputed
`to_timedelta` of the `תוצאה מיטבית` column. -/
def brTimeLE (a b : BRow) : Prop :=
  optLE (parseDurationSecs a.best_text) (parseDurationSecs b.best_text)

instance : DecidableRel brTimeLE := fun _ _ => optLE.dec _ _

instance : IsTotal BRow brTimeLE := ⟨fun _ _ => optLE_total _ _⟩

instance : IsTrans BRow brTimeLE := ⟨fun _ _ _ => optLE_trans _ _ _⟩

/-- The collection loop of `best_results_for_category` (lines 421-424): one
`fetch_best_result` per participant, appending each non-`None` row; an
uncaught exception inside a lookup aborts the loop. -/
def collectBest (fetch : String → String → FetchOutcome) (category : String) :
    List (String × String) → Except String (List BRow)
  | [] => .ok []
  | p :: rest =>
    match fetch_best_result (fetch p.1 p.2) p.1 p.2 category with
    | .error e => .error e
    | .ok none => collectBest fetch category rest
    | .ok (some row) => (collectBest fetch category rest).map (fun l => row :: l)

/-- `best_results_for_category` (lines 418-435, with the Excel export of
lines 437-454 out of scope): collect each participant's best row for the
category, return `none` when nothing was collected (the code prints a
message and returns `None`), else the collection sorted ascending by
elapsed time. -/
def best_results_for_category (names : List (String × String))
    (fetch : String → String → FetchOutcome) (category : String) :
    Except String (Option (List BRow)) :=
  match collectBest fetch category names with
  | .error e => .error e
  | .ok best =>
    if best.isEmpty then .ok none
    else .ok (some (List.insertionSort brTimeLE best))

end BR

/-! Concrete inputs and outputs used by the claim instances below. -/

/-- A 21K row with personal time 1:45:00. -/
def c1row1 : Row := ⟨[("מקצה", "21K"), ("זמן אישי", "1:45:00"), ("תוצאה", "")]⟩

/-- A 21K row with personal time 1:50:00. -/
def c1row2 : Row := ⟨[("מקצה", "21K"), ("זמן אישי", "1:50:00"), ("תוצאה", "")]⟩

/-- A 21K row with personal time 1:40:00. -/
def c1row3 : Row := ⟨[("מקצה", "21K"), ("זמן אישי", "1:40:00"), ("תוצאה", "")]⟩

/-- Three rows of one participant, all normalizing to 21K. -/
def c1rows : List Row := [c1row1, c1row2, c1row3]

/-- The expected best selection for `c1rows`: the 1:40:00 row (6000 s). -/
def c1best : NRow :=
  { raw := c1row3, dist := some "21K", time := some 6000, note := "Best Result" }

/-- A row normalizing to 5K (personal time 0:25:00). -/
def c7row5 : Row := ⟨[("מקצה", "5"), ("זמן אישי", "0:25:00"), ("תוצאה", "")]⟩

/-- A row normalizing to 42K (personal time 3:30:00). -/
def c7row42 : Row := ⟨[("מקצה", "42K"), ("זמן אישי", "3:30:00"), ("תוצאה", "")]⟩

/-- A row normalizing to 10K (personal time 0:50:00). -/
def c7row10 : Row := ⟨[("מקצה", "10000"), ("זמן אישי", "0:50:00"), ("תוצאה", "")]⟩

/-- Rows covering exactly the categories 5K, 42K and 10K. -/
def c7rows : List Row := [c7row5, c7row42, c7row10]

/-- The expected best selection for `c7rows`, in priority order
42K, 10K, 5K. -/
def c7list : List NRow :=
  [{ raw := c7row42, dist := some "42K", time := some 12600, note := "Best Result" },
   { raw := c7row10, dist := some "10K", time := some 3000, note := "Best Result" },
   { raw := c7row5, dist := some "5K", time := some 1500, note := "Best Result" }]

/-- A row whose personal time is the literal text `NaT` with a valid result
time. -/
def c2row : Row := ⟨[("זמן אישי", "NaT"), ("תוצאה", "0:41:00")]⟩

/-- The single result row of participant A: a 10K in 1:30:00. -/
def c3rowA : Row := ⟨[("מקצה", "10000"), ("זמן אישי", "1:30:00"), ("תוצאה", "")]⟩

/-- The single result row of participant C: a 10K in 1:25:00. -/
def c3rowC : Row := ⟨[("מקצה", "10000"), ("זמן אישי", "1:25:00"), ("תוצאה", "")]⟩

/-- The three aggregated participants A, B, C. -/
def c3names : List (String × String) := [("A", "a"), ("B", "b"), ("C", "c")]

/-- The fetch outcomes of the C3 scenario: A and C return result pages,
B's lookup times out. -/
def c3fetch (f _l : String) : BR.FetchOutcome :=
  if f = "A" then .page [c3rowA] else if f = "C" then .page [c3rowC] else .timeout

/-- Participant A's collected best row (5400 s). -/
def c3bestA : BR.BRow :=
  { raw := c3rowA, dist := some "10K", best_text := "1:30:00", time := some 5400,
    first := "A", last := "a", note := "Best Result" }

/-- Participant C's collected best row (5100 s). -/
def c3bestC : BR.BRow :=
  { raw := c3rowC, dist := some "10K", best_text := "1:25:00", time := some 5100,
    first := "C", last := "c", note := "Best Result" }

/-- A row with a known category (10K) whose two time cells are both
unparseable. -/
def c8row : Row := ⟨[("מקצה", "10000"), ("זמן אישי", "garbage"), ("תוצאה", "junk")]⟩

/-- A row whose category label matches no canonical category. -/
def c8rowUnknown : Row :=
  ⟨[("מקצה", "weird label"), ("זמן אישי", "1:00:00"), ("תוצאה", "")]⟩

/-! Helper lemmas. -/

theorem idxminBy_eq_none {α : Type} (f : α → Option Nat) :
    ∀ (l : List α), idxminBy f l = none → ∀ r ∈ l, f r = none := by
  intro l
  induction l with
  | nil => intro _ r hr; cases hr
  | cons a rest ih =>
    intro h r hr
    simp only [idxminBy] at h
    cases hfa : f a with
    | none =>
      simp only [hfa] at h
      rcases List.mem_cons.mp hr with rfl | hr
      · exact hfa
      · exact ih h r hr
    | some t =>
      simp only [hfa] at h
      cases hrest : idxminBy f rest with
      | none => simp only [hrest] at h; exact Option.noConfusion h
      | some b =>
        simp only [hrest] at h
        cases hfb : f b with
        | none => simp only [hfb] at h; exact Option.noConfusion h
        | some tb =>
          simp only [hfb] at h
          by_cases hle : t ≤ tb
          · simp only [if_pos hle] at h; exact Option.noConfusion h
          · simp only [if_neg hle] at h; exact Option.noConfusion h

theorem idxminBy_mem {α : Type} (f : α → Option Nat) :
    ∀ (l : List α) (b : α), idxminBy f l = some b → b ∈ l := by
  intro l
  induction l with
  | nil => intro b h; simp [idxminBy] at h
  | cons a rest ih =>
    intro b h
    simp only [idxminBy] at h
    cases hfa : f a with
    | none =>
      simp only [hfa] at h
      exact List.mem_cons_of_mem _ (ih b h)
    | some t =>
      simp only [hfa] at h
      cases hrest : idxminBy f rest with
      | none =>
        simp only [hrest] at h
        cases h
        exact List.mem_cons_self _ _
      | some b0 =>
        simp only [hrest] at h
        cases hfb : f b0 with
        | none =>
          simp only [hfb] at h
          cases h
          exact List.mem_cons_self _ _
        | some tb =>
          simp only [hfb] at h
          by_cases hle : t ≤ tb
          · simp only [if_pos hle] at h
            cases h
            exact List.mem_cons_self _ _
          · simp only [if_neg hle] at h
            cases h
            exact List.mem_cons_of_mem _ (ih _ hrest)

theorem idxminBy_time {α : Type} (f : α → Option Nat) :
    ∀ (l : List α) (b : α), idxminBy f l = some b → ∃ t, f b = some t := by
  intro l
  induction l with
  | nil => intro b h; simp [idxminBy] at h
  | cons a rest ih =>
    intro b h
    simp only [idxminBy] at h
    cases hfa : f a with
    | none =>
      simp only [hfa] at h
      exact ih b h
    | some t =>
      simp only [hfa] at h
      cases hrest : idxminBy f rest with
      | none =>
        simp only [hrest] at h
        cases h
        exact ⟨t, hfa⟩
      | some b0 =>
        simp only [hrest] at h
        cases hfb : f b0 with
        | none =>
          simp only [hfb] at h
          cases h
          exact ⟨t, hfa⟩
        | some tb =>
          simp only [hfb] at h
          by_cases hle : t ≤ tb
          · simp only [if_pos hle] at h
            cases h
            exact ⟨t, hfa⟩
          · simp only [if_neg hle] at h
            cases h
            exact ⟨tb, hfb⟩

theorem idxminBy_le {α : Type} (f : α → Option Nat) :
    ∀ (l : List α) (b : α), idxminBy f l = some b →
      ∀ r ∈ l, ∀ t, f r = some t → ∃ tb, f b = some tb ∧ tb ≤ t := by
  intro l
  induction l with
  | nil => intro b h; simp [idxminBy] at h
  | cons a rest ih =>
    intro b h r hr t hft
    simp only [idxminBy] at h
    cases hfa : f a with
    | none =>
      simp only [hfa] at h
      rcases List.mem_cons.mp hr with rfl | hr
      · rw [hfa] at hft; cases hft
      · exact ih b h r hr t hft
    | some t0 =>
      simp only [hfa] at h
      cases hrest : idxminBy f rest with
      | none =>
        simp only [hrest] at h
        cases h
        rcases List.mem_cons.mp hr with rfl | hr
        · rw [hfa] at hft
          cases hft
          exact ⟨t, hfa, Nat.le_refl t⟩
        · rw [idxminBy_eq_none f rest hrest r hr] at hft
          cases hft
      | some b0 =>
        simp only [hrest] at h
        cases hfb : f b0 with
        | none =>
          obtain ⟨tb, htb⟩ := idxminBy_time f rest b0 hrest
          rw [htb] at hfb
          cases hfb
        | some tb =>
          simp only [hfb] at h
          by_cases hle : t0 ≤ tb
          · simp only [if_pos hle] at h
            cases h
            rcases List.mem_cons.mp hr with rfl | hr
            · rw [hfa] at hft
              cases hft
              exact ⟨t, hfa, Nat.le_refl t⟩
            · obtain ⟨tb2, htb2, hle2⟩ := ih b0 hrest r hr t hft
              rw [htb2] at hfb
              cases hfb
              exact ⟨t0, hfa, Nat.le_trans hle hle2⟩
          · simp only [if_neg hle] at h
            cases h
            rcases List.mem_cons.mp hr with rfl | hr
            · rw [hfa] at hft
              cases hft
              exact ⟨tb, hfb, Nat.le_of_lt (Nat.lt_of_not_le hle)⟩
            · exact ih b hrest r hr t hft

theorem pickBests_forall2 (valid : List NRow) :
    ∀ (cs : List String) (bs : List NRow), SP.pickBests valid cs = .ok bs →
      List.Forall₂ (fun c b =>
        idxminBy NRow.time (valid.filter (fun n => n.dist == some c)) = some b) cs bs := by
  intro cs
  induction cs with
  | nil =>
    intro bs h
    simp only [SP.pickBests] at h
    cases h
    exact .nil
  | cons c cs ih =>
    intro bs h
    simp only [SP.pickBests] at h
    cases hx : idxminBy NRow.time (valid.filter (fun n => n.dist == some c)) with
    | none => simp only [hx] at h; exact Except.noConfusion h
    | some b =>
      simp only [hx] at h
      cases hrec : SP.pickBests valid cs with
      | error e => rw [hrec] at h; exact Except.noConfusion h
      | ok bs0 =>
        rw [hrec] at h
        simp only [Except.map] at h
        cases h
        exact .cons hx (ih bs0 hrec)

theorem forall2_mem_right {α β : Type} {P : α → β → Prop} :
    ∀ {cs : List α} {bs : List β}, List.Forall₂ P cs bs → ∀ b ∈ bs, ∃ c ∈ cs, P c b := by
  intro cs bs h
  induction h with
  | nil => intro b hb; cases hb
  | cons hcb _ ih =>
    intro b hb
    rcases List.mem_cons.mp hb with rfl | hb
    · exact ⟨_, List.mem_cons_self _ _, hcb⟩
    · obtain ⟨c, hc, hp⟩ := ih b hb
      exact ⟨c, List.mem_cons_of_mem _ hc, hp⟩

theorem countP_le_one_of_forall2 :
    ∀ {cs : List String} {bs : List NRow},
      List.Forall₂ (fun c b => b.dist = some c) cs bs → cs.Nodup →
      ∀ c' : String, bs.countP (fun b => b.dist == some c') ≤ 1 := by
  intro cs bs hf
  induction hf with
  | nil => intro _ c'; simp
  | @cons c b cs' bs' hcb hrest ih =>
    intro hn c'
    obtain ⟨hcnot, hn'⟩ := List.nodup_cons.mp hn
    rw [List.countP_cons]
    by_cases hc : b.dist = some c'
    · have hzero : bs'.countP (fun b => b.dist == some c') = 0 := by
        rw [List.countP_eq_zero]
        intro b' hb'
        obtain ⟨c2, hc2, hd2⟩ := forall2_mem_right hrest b' hb'
        have : c = c' := by rw [hcb] at hc; exact Option.some.inj hc
        subst this
        simp only [hd2, beq_iff_eq, Option.some.injEq]
        intro hcontra
        exact hcnot (hcontra ▸ hc2)
      rw [hzero]
      simp [hc]
    · have : (b.dist == some c') = false := by
        simp only [beq_eq_false_iff_ne, ne_eq]
        exact hc
      rw [this]
      simpa using ih hn' c'

theorem best_selection_ok {rows : List Row} {bl : List NRow}
    (h : SP.best_selection rows = .ok bl) :
    ∃ bs, SP.pickBests ((rows.map SP.mkNRow).filter SP.validForBest)
        ((((rows.map SP.mkNRow).filter SP.validForBest).filterMap NRow.dist).dedup) = .ok bs ∧
      bl = List.insertionSort SP.keyLE
        (bs.map (fun b => { b with note := "Best Result" })) := by
  simp only [SP.best_selection] at h
  cases hrec : SP.pickBests ((rows.map SP.mkNRow).filter SP.validForBest)
      ((((rows.map SP.mkNRow).filter SP.validForBest).filterMap NRow.dist).dedup) with
  | error e => rw [hrec] at h; exact Except.noConfusion h
  | ok bs =>
    rw [hrec] at h
    simp only [Except.map] at h
    cases h
    exact ⟨bs, rfl, rfl⟩

theorem dist_of_pick {valid : List NRow} {c : String} {b : NRow}
    (hx : idxminBy NRow.time (valid.filter (fun n => n.dist == some c)) = some b) :
    b.dist = some c := by
  have hmem := idxminBy_mem NRow.time _ b hx
  have := List.of_mem_filter hmem
  exact beq_iff_eq.mp this

/-- Claim C1: the per-participant best selection produces at most one
BestResult per canonical category, each tagged "Best Result", and each
BestResult's elapsed duration is at most the duration of every row of the
same participant and category whose time parses; in particular three 21K
rows with durations 1:45:00, 1:50:00 and 1:40:00 select exactly one 21K
BestResult, the 1:40:00 one. -/
theorem C1_best_selection (rows : List Row) (bl : List NRow)
    (h : SP.best_selection rows = .ok bl) :
    (∀ c : String, bl.countP (fun b => b.dist == some c) ≤ 1) ∧
    (∀ b ∈ bl, b.note = "Best Result") ∧
    (∀ b ∈ bl, ∀ r ∈ rows, SP.normalize_distance (r.get "מקצה") = b.dist →
      ∀ t, SP.parse_time r = some t → ∃ tb, b.time = some tb ∧ tb ≤ t) ∧
    (rows = c1rows → bl = [c1best]) := by
  obtain ⟨bs, hpick, hbl⟩ := best_selection_ok h
  have hperm : List.Perm bl (bs.map (fun b => { b with note := "Best Result" })) := by
    rw [hbl]
    exact List.perm_insertionSort _ _
  have hf := pickBests_forall2 _ _ _ hpick
  have hdist : List.Forall₂ (fun c b => b.dist = some c) _ bs :=
    hf.imp (fun _ _ hx => dist_of_pick hx)
  refine ⟨?_, ?_, ?_, ?_⟩
  · intro c
    have h1 := hperm.countP_eq (fun b => b.dist == some c)
    rw [h1, List.countP_map]
    exact countP_le_one_of_forall2 hdist (List.nodup_dedup _) c
  · intro b hb
    obtain ⟨b0, _, rfl⟩ := List.mem_map.mp (hperm.mem_iff.mp hb)
    rfl
  · intro b hb r hr hd t ht
    obtain ⟨b0, hb0, rfl⟩ := List.mem_map.mp (hperm.mem_iff.mp hb)
    obtain ⟨c, hc, hx⟩ := forall2_mem_right hf b0 hb0
    have hbd : b0.dist = some c := dist_of_pick hx
    have hrn : SP.mkNRow r ∈ rows.map SP.mkNRow := List.mem_map_of_mem _ hr
    obtain ⟨n, hn, hnd⟩ := List.mem_filterMap.mp (List.mem_dedup.mp hc)
    have hnv := List.of_mem_filter hn
    have hc30 : c ≠ "30000" ∧ c ≠ "7000" := by
      simp only [SP.validForBest, Bool.and_eq_true, Bool.not_eq_true',
        beq_eq_false_iff_ne, ne_eq] at hnv
      rcases hnv with ⟨⟨_, h30⟩, h70⟩
      constructor
      · intro hcontra
        exact h30 (by rw [hnd, hcontra])
      · intro hcontra
        exact h70 (by rw [hnd, hcontra])
    have hdr : (SP.mkNRow r).dist = some c := hd.trans hbd
    have hval : SP.validForBest (SP.mkNRow r) = true := by
      simp only [SP.validForBest, hdr]
      simp [hc30.1, hc30.2]
    have hgroup : SP.mkNRow r ∈
        ((rows.map SP.mkNRow).filter SP.validForBest).filter
          (fun n => n.dist == some c) := by
      apply List.mem_filter.mpr
      refine ⟨List.mem_filter.mpr ⟨hrn, hval⟩, ?_⟩
      rw [hdr]
      simp
    have htime : NRow.time (SP.mkNRow r) = some t := ht
    obtain ⟨tb, htb, hle⟩ := idxminBy_le NRow.time _ b0 hx (SP.mkNRow r) hgroup t htime
    exact ⟨tb, htb, hle⟩
  · intro hr
    subst hr
    have he : SP.best_selection c1rows = .ok [c1best] := rfl
    rw [he] at h
    exact (Except.ok.inj h).symm

/-- Witness for C1: instantiating the minimality part at the concrete
three-row 21K input shows the selected row's 6000 s is at most the 6300 s of
the 1:45:00 row. -/
theorem C1_best_selection_witness : ∃ tb, c1best.time = some tb ∧ tb ≤ 6300 :=
  (C1_best_selection c1rows [c1best] rfl).2.2.1 c1best (by decide)
    c1row1 (by decide) (by decide) 6300 (by decide)

/-- Claim C7: the per-participant best-results sequence is ordered by the
fixed category priority 42K, 21K, 15K, 10K, 5K (any category outside the
fixed list has sort key 5 and so comes after all fixed categories); with
best rows for exactly 5K, 42K and 10K the output order is 42K, 10K, 5K. -/
theorem C7_category_order (rows : List Row) (bl : List NRow)
    (h : SP.best_selection rows = .ok bl) :
    List.Sorted SP.keyLE bl ∧
    (rows = c7rows → bl.map NRow.dist = [some "42K", some "10K", some "5K"]) := by
  obtain ⟨bs, hpick, hbl⟩ := best_selection_ok h
  constructor
  · rw [hbl]
    exact List.sorted_insertionSort SP.keyLE _
  · intro hr
    subst hr
    have he : SP.best_selection c7rows = .ok c7list := rfl
    rw [he] at h
    rw [(Except.ok.inj h).symm]
    rfl

/-- Witness for C7: the concrete three-category input evaluates to the
priority order 42K, 10K, 5K. -/
theorem C7_category_order_witness :
    c7list.map NRow.dist = [some "42K", some "10K", some "5K"] :=
  (C7_category_order c7rows c7list rfl).2 rfl

/-- Claim C2: the time resolver returns the personal-time cell when it is
present and its stripped text is not a null-time sentinel ("00:00:00", "0",
empty, "NaT", "None"); otherwise the result cell under the same exclusion;
and the empty string when both are excluded or absent.  (The function
strips each cell before testing and returning it, so a missing cell reads
as the empty string, itself a sentinel.) -/
theorem C2_time_resolver (row : Row) :
    (∀ v, row.get "זמן אישי" = some v → pyStrip v ∉ BR.nullSentinels →
        BR.choose_best_time_string row = pyStrip v) ∧
    ((row.get "זמן אישי" = none ∨
        (∃ v, row.get "זמן אישי" = some v ∧ pyStrip v ∈ BR.nullSentinels)) →
      (∀ w, row.get "תוצאה" = some w → pyStrip w ∉ BR.nullSentinels →
          BR.choose_best_time_string row = pyStrip w) ∧
      ((row.get "תוצאה" = none ∨
          (∃ w, row.get "תוצאה" = some w ∧ pyStrip w ∈ BR.nullSentinels)) →
        BR.choose_best_time_string row = "")) := by
  constructor
  · intro v hv hnv
    simp only [BR.choose_best_time_string, hv, Option.getD_some]
    rw [if_neg hnv]
  · intro hfirst
    have hsent : pyStrip ((row.get "זמן אישי").getD "") ∈ BR.nullSentinels := by
      rcases hfirst with hnone | ⟨v, hv, hvs⟩
      · rw [hnone]
        decide
      · rw [hv]
        exact hvs
    constructor
    · intro w hw hnw
      simp only [BR.choose_best_time_string, if_pos hsent, hw, Option.getD_some]
      rw [if_neg hnw]
    · intro hsecond
      have hsent2 : pyStrip ((row.get "תוצאה").getD "") ∈ BR.nullSentinels := by
        rcases hsecond with hnone | ⟨w, hw, hws⟩
        · rw [hnone]
          decide
        · rw [hw]
          exact hws
      simp only [BR.choose_best_time_string, if_pos hsent, if_pos hsent2]

/-- Witness for C2: on a row whose personal time reads "NaT" and whose
result reads "0:41:00", the resolver falls back to the result cell. -/
theorem C2_time_resolver_witness : BR.choose_best_time_string c2row = "0:41:00" :=
  ((C2_time_resolver c2row).2 (Or.inr ⟨"NaT", rfl, by decide⟩)).1
    "0:41:00" rfl (by decide)

/-- Claim C4: every member of the fixed 10K alias set normalizes to 10K,
every member of the fixed 21K alias set (meter counts, canonical 21K/21k,
and the Hebrew half-marathon renderings with their punctuation, hyphen and
underscore variants) normalizes to 21K, and every member of the fixed 42K
alias set normalizes to 42K. -/
theorem C4_alias_sets :
    (∀ s ∈ BR.alias10K, BR.normalize_distance (some s) = some "10K") ∧
    (∀ s ∈ BR.alias21K, BR.normalize_distance (some s) = some "21K") ∧
    (∀ s ∈ BR.alias42K, BR.normalize_distance (some s) = some "42K") := by
  decide

/-- Witness for C4: the meter count "21097" and the Hebrew half-marathon
label both normalize to 21K. -/
theorem C4_alias_sets_witness :
    BR.normalize_distance (some "21097") = some "21K" ∧
    BR.normalize_distance (some "חצי מרתון") = some "21K" :=
  ⟨C4_alias_sets.2.1 "21097" (by decide), C4_alias_sets.2.1 "חצי מרתון" (by decide)⟩

/-- Claim C5: the category normalizer is total and deterministic — for every
input its value lies in the closed enumeration 42K, 21K, 15K, 10K, 5K,
unknown (`none`), and a null or blank-after-stripping input yields unknown.
Totality and determinism hold by construction: `BR.normalize_distance` is a
pure total Lean function. -/
theorem C5_normalizer_total (v : Option String) :
    BR.normalize_distance v ∈
      [some "42K", some "21K", some "15K", some "10K", some "5K",
       (none : Option String)] ∧
    (v = none → BR.normalize_distance v = none) ∧
    (∀ s, v = some s → pyStrip s = "" → BR.normalize_distance v = none) := by
  cases v with
  | none => exact ⟨by decide, fun _ => rfl, fun s h => by cases h⟩
  | some s =>
    refine ⟨?_, ?_, ?_⟩
    · simp only [BR.normalize_distance]
      repeat' split
      all_goals decide
    · intro h
      cases h
    · intro s0 h hs
      cases h
      simp [BR.normalize_distance, hs]

/-- Witness for C5: the null input maps to unknown. -/
theorem C5_normalizer_total_witness : BR.normalize_distance none = none :=
  (C5_normalizer_total none).2.1 rfl

/-- Claim C6: an input whose stripped label contains both the substring "5"
and the substring "2" is never classified 5K (the "2-excludes-5" guard of
the final rule; no earlier rule produces 5K either). -/
theorem C6_guard_5K (s : String) (_h5 : strContains (pyStrip s) "5" = true)
    (h2 : strContains (pyStrip s) "2" = true) :
    BR.normalize_distance (some s) ≠ some "5K" := by
  simp only [BR.normalize_distance]
  repeat' split
  · simp
  · simp
  · simp
  · simp
  · simp
  · next hcond =>
    rw [h2] at hcond
    simp at hcond
  · simp

/-- Witness for C6: the label "25 ק״מ" contains both digits and is not
classified 5K. -/
theorem C6_guard_5K_witness :
    strContains (pyStrip "25 ק״מ") "5" = true ∧
    strContains (pyStrip "25 ק״מ") "2" = true ∧
    BR.normalize_distance (some "25 ק״מ") ≠ some "5K" :=
  ⟨by decide, by decide, C6_guard_5K "25 ק״מ" (by decide) (by decide)⟩

/-- Claim C10: the normalizer is not idempotent on its own outputs — the
canonical label "10K" is absent from the 10K alias set and matches no later
rule, so it normalizes to unknown (in both source files), while "21K",
"42K", "15K" and "5K" each normalize to themselves; hence applying the
normalizer twice to "10000" differs from applying it once. -/
theorem C10_not_idempotent :
    "10K" ∉ BR.alias10K ∧
    BR.normalize_distance (some "10K") = none ∧
    SP.normalize_distance (some "10K") = none ∧
    BR.normalize_distance (some "21K") = some "21K" ∧
    BR.normalize_distance (some "42K") = some "42K" ∧
    BR.normalize_distance (some "15K") = some "15K" ∧
    BR.normalize_distance (some "5K") = some "5K" ∧
    BR.normalize_distance (some "10000") = some "10K" ∧
    BR.normalize_distance (BR.normalize_distance (some "10000")) ≠
      BR.normalize_distance (some "10000") := by
  decide

/-- Claim C8 (code bug): the spec requires a participant with zero
parseable durations to yield an empty best-results sequence, not an error.
The code satisfies this only when every category is unknown; a row whose
category is known (here "10000" → 10K) but whose time cells are both
unparseable leaves an all-`NaT` group, on which the `idxmin`/`loc` steps of
both selectors raise instead of yielding an empty sequence. -/
theorem C8_unparseable_raises :
    SP.best_selection [c8row] = .error "idxmin: all values in the group are NA" ∧
    BR.fetch_best_result (.page [c8row]) "x" "y" "10K" =
      .error "idxmin: all values in the group are NA" ∧
    SP.best_selection [c8rowUnknown] = .ok [] :=
  ⟨rfl, rfl, rfl⟩

/-- Counterexample for C9: the claim says birth-year normalization maps any
unparseable value to an unknown-year result rather than raising, but the
slash branch sits outside the `try` block, so the slash-containing string
"a/b" (fewer than three components) raises `IndexError`. -/
theorem C9_year_counterexample :
    BR.normalize_year (.str "a/b") = .error "IndexError: list index out of range" :=
  rfl

/-- Claim C9 as amended: numeric years are returned as-is, non-slash
textual input is parsed with unparseable values mapping to the unknown
year, and a slash-delimited date takes its third component as the year with
the fixed pivot (two-digit years above 25 map to the 1900s, the rest to the
2000s, so "15/03/90" gives 1990 and "15/03/20" gives 2020) — provided the
slash-delimited string has at least three components and an
integer-parseable third component; otherwise the code raises (`IndexError`
or `ValueError`). -/
theorem C9_year_normalization :
    (∀ n : Int, BR.normalize_year (.int n) = .ok (some n)) ∧
    (BR.normalize_year .na = .ok none) ∧
    (∀ y : Int, BR.normalize_year (.timestamp y) = .ok (some y)) ∧
    (∀ s y, strContains s "/" = false → pyInt s = some y →
        BR.normalize_year (.str s) = .ok (some y)) ∧
    (∀ s, strContains s "/" = false → pyInt s = none →
        BR.normalize_year (.str s) = .ok none) ∧
    (∀ s p y, strContains s "/" = true → (pySplit '/' s)[2]? = some p →
        pyInt p = some y → y < 100 →
        BR.normalize_year (.str s) =
          .ok (some (if y > 25 then y + 1900 else y + 2000))) ∧
    (∀ s p y, strContains s "/" = true → (pySplit '/' s)[2]? = some p →
        pyInt p = some y → ¬y < 100 → BR.normalize_year (.str s) = .ok (some y)) ∧
    (∀ s, strContains s "/" = true → (pySplit '/' s)[2]? = none →
        BR.normalize_year (.str s) = .error "IndexError: list index out of range") ∧
    (∀ s p, strContains s "/" = true → (pySplit '/' s)[2]? = some p →
        pyInt p = none →
        BR.normalize_year (.str s) = .error "ValueError: invalid literal for int") ∧
    BR.normalize_year (.str "15/03/90") = .ok (some 1990) ∧
    BR.normalize_year (.str "15/03/20") = .ok (some 2020) := by
  refine ⟨fun n => rfl, rfl, fun y => rfl, ?_, ?_, ?_, ?_, ?_, ?_, rfl, rfl⟩
  · intro s y hns hp
    simp [BR.normalize_year, hns, hp]
  · intro s hns hp
    simp [BR.normalize_year, hns, hp]
  · intro s p y hs hget hp hy
    simp [BR.normalize_year, hs, hget, hp, hy]
  · intro s p y hs hget hp hy
    simp [BR.normalize_year, hs, hget, hp, hy]
  · intro s hs hget
    simp [BR.normalize_year, hs, hget]
  · intro s p hs hget hp
    simp [BR.normalize_year, hs, hget, hp]

/-- Witness for C9: a plain textual year parses as-is, and the slash date
"15/03/77" expands with the fixed pivot to 1977. -/
theorem C9_year_normalization_witness :
    BR.normalize_year (.str "1984") = .ok (some 1984) ∧
    BR.normalize_year (.str "15/03/77") = .ok (some 1977) :=
  ⟨C9_year_normalization.2.2.2.1 "1984" 1984 (by decide) (by decide),
   C9_year_normalization.2.2.2.2.2.1 "15/03/77" "77" 77 (by decide) (by decide)
     (by decide) (by decide)⟩

theorem collectBest_ok (fetch : String → String → BR.FetchOutcome) (category : String) :
    ∀ (names : List (String × String)),
      (∀ p ∈ names, ∃ o, BR.fetch_best_result (fetch p.1 p.2) p.1 p.2 category = .ok o) →
      BR.collectBest fetch category names =
        .ok (names.filterMap (fun p =>
          (BR.fetch_best_result (fetch p.1 p.2) p.1 p.2 category).toOption.join)) := by
  intro names
  induction names with
  | nil => intro _; rfl
  | cons p rest ih =>
    intro h
    obtain ⟨o, ho⟩ := h p (List.mem_cons_self _ _)
    have hrest := ih (fun q hq => h q (List.mem_cons_of_mem _ hq))
    simp only [BR.collectBest, ho, List.filterMap_cons]
    cases o with
    | none =>
      simp only [Except.toOption, Option.join]
      exact hrest
    | some row =>
      simp only [Except.toOption, Option.join]
      rw [hrest]
      rfl

/-- Claim C3: per-participant lookup failures are non-fatal in the
cross-participant aggregation — a timeout, request error or missing table
makes `fetch_best_result` return `None`, the failed participant is omitted
while the rest are processed, and the collected best rows come out sorted
ascending by elapsed duration; in the concrete scenario with participants
A, B, C where B times out and A, C succeed with 10K durations 1:30:00 and
1:25:00, the output is exactly the two rows [C, A] and no error is
raised. -/
theorem C3_aggregator (names : List (String × String))
    (fetch : String → String → BR.FetchOutcome) (category : String)
    (h : ∀ p ∈ names, ∃ o,
        BR.fetch_best_result (fetch p.1 p.2) p.1 p.2 category = .ok o) :
    ∃ res : Option (List BR.BRow),
      BR.best_results_for_category names fetch category = .ok res ∧
      List.Perm (res.getD [])
        (names.filterMap (fun p =>
          (BR.fetch_best_result (fetch p.1 p.2) p.1 p.2 category).toOption.join)) ∧
      List.Sorted BR.brTimeLE (res.getD []) ∧
      (∀ f l c, BR.fetch_best_result .timeout f l c = .ok none) ∧
      (∀ f l c, BR.fetch_best_result .requestError f l c = .ok none) ∧
      (∀ f l c, BR.fetch_best_result .noTable f l c = .ok none) ∧
      (names = c3names → fetch = c3fetch → category = "10K" →
        BR.best_results_for_category names fetch category =
          .ok (some [c3bestC, c3bestA])) := by
  have hcol := collectBest_ok fetch category names h
  by_cases hbe : (names.filterMap (fun p =>
      (BR.fetch_best_result (fetch p.1 p.2) p.1 p.2 category).toOption.join)).isEmpty
  · refine ⟨none, ?_, ?_, ?_, fun _ _ _ => rfl, fun _ _ _ => rfl, fun _ _ _ => rfl, ?_⟩
    · simp only [BR.best_results_for_category, hcol, if_pos hbe]
    · rw [List.isEmpty_iff] at hbe
      rw [hbe]
      exact List.Perm.refl _
    · exact List.sorted_nil
    · intro h1 h2 h3
      subst h1
      subst h2
      subst h3
      rfl
  · refine ⟨some (List.insertionSort BR.brTimeLE (names.filterMap (fun p =>
        (BR.fetch_best_result (fetch p.1 p.2) p.1 p.2 category).toOption.join))),
      ?_, ?_, ?_, fun _ _ _ => rfl, fun _ _ _ => rfl, fun _ _ _ => rfl, ?_⟩
    · simp only [BR.best_results_for_category, hcol, if_neg hbe]
    · exact List.perm_insertionSort _ _
    · exact List.sorted_insertionSort BR.brTimeLE _
    · intro h1 h2 h3
      subst h1
      subst h2
      subst h3
      rfl

/-- Witness for C3: the concrete A/B/C scenario evaluates to exactly the
two rows [C, A] with no error. -/
theorem C3_aggregator_witness :
    BR.best_results_for_category c3names c3fetch "10K" =
      .ok (some [c3bestC, c3bestA]) := by
  obtain ⟨res, -, -, -, -, -, -, hconc⟩ :=
    C3_aggregator c3names c3fetch "10K" (by
      intro p hp
      fin_cases hp
      · exact ⟨_, rfl⟩
      · exact ⟨_, rfl⟩
      · exact ⟨_, rfl⟩)
  exact hconc rfl rfl rfl
